import Mathlib

set_option maxRecDepth 8000

/-!
Verification of the custom S3 file provider of a Medusa 2.0 backend
boilerplate: the filename sanitizer (`src/backend/src/utils/file-utils.ts`)
and the `S3FileProviderService` (upload / delete / presigned-URL /
buffer-retrieval operations).

The TypeScript code is shallowly embedded: the ambient effects (current
time `Date.now()`, the `ulid()` randomness source, and the S3 client) are
passed in as explicit parameters; JS strings are modelled as Lean `String`
(sequences of characters compared by code point); thrown errors are
modelled with `Except`.  JS truthiness on optional string fields is
modelled by letting `""` stand for an absent/empty value, which is exactly
how every `if (!x)` test in the source treats them.
-/

/-! ## Node's `path.extname` (posix)

`sanitizeFileName` calls `path.extname(originalName)`.  The embedding
below follows Node's `path.posix.extname` implementation: a right-to-left
scan tracking the last dot (`startDot`), the end of the basename with
trailing slashes trimmed (`endIdx`), the start of the final path segment
(`startPart`), and `preDotState`, with an early stop at the first path
separator that follows a non-separator character.  `-1` sentinels are kept
as in the source.
-/

structure ExtScanState where
  startDot : Int
  startPart : Nat
  endIdx : Int
  matchedSlash : Bool
  preDotState : Int
deriving Repr, DecidableEq

def extnameScan (cs : List Char) : Nat → ExtScanState → ExtScanState
  | 0, st => st
  | i + 1, st =>
    let c := cs.getD i ' '
    if c = '/' then
      if !st.matchedSlash then { st with startPart := i + 1 }
      else extnameScan cs i st
    else
      let st1 := if st.endIdx = -1 then { st with matchedSlash := false, endIdx := (i : Int) + 1 } else st
      let st2 :=
        if c = '.' then
          if st1.startDot = -1 then { st1 with startDot := (i : Int) }
          else if st1.preDotState ≠ 1 then { st1 with preDotState := 1 }
          else st1
        else if st1.startDot ≠ -1 then { st1 with preDotState := -1 }
        else st1
      extnameScan cs i st2

def extname (s : String) : String :=
  let cs := s.data
  let st := extnameScan cs cs.length ⟨-1, 0, -1, true, 0⟩
  if st.startDot = -1 ∨ st.endIdx = -1 ∨ st.preDotState = 0 ∨
      (st.preDotState = 1 ∧ st.startDot = st.endIdx - 1 ∧ st.startDot = (st.startPart : Int) + 1) then
    ""
  else
    String.mk ((cs.drop st.startDot.toNat).take (st.endIdx - st.startDot).toNat)

/-! Sanity checks of the embedding against Node's documented behaviour. -/

example : extname "index.html" = ".html" := by decide
example : extname "index.coffee.md" = ".md" := by decide
example : extname "index." = "." := by decide
example : extname "index" = "" := by decide
example : extname ".index" = "" := by decide
example : extname ".index.md" = ".md" := by decide
example : extname ".." = "" := by decide
example : extname "dir/file.txt" = ".txt" := by decide
example : extname "a.b/c" = "" := by decide
example : extname "file.txt/" = ".txt" := by decide
example : extname "a.b@c" = ".b@c" := by decide
example : extname "我的图片.png" = ".png" := by decide
example : extname ".bashrc" = "" := by decide

/-! ## The Key Generator: `sanitizeFileName`

From `src/backend/src/utils/file-utils.ts`.  `Date.now()` and `ulid()` are
passed explicitly as `now` and `uid`; `!originalName` is `originalName = ""`.
`path.extname(originalName) || ''` is just `extname originalName` since
`extname` already returns `""` in the falsy case.
-/

def sanitizeFileName (now : Nat) (uid : String) (originalName : String) : String :=
  if originalName = "" then
    "prod_" ++ Nat.repr now ++ "_" ++ uid ++ ".bin"
  else
    "prod_" ++ Nat.repr now ++ "_" ++ uid ++ extname originalName

example : sanitizeFileName 1700000000000 "01ARZ3NDEKTSV4RRFFQ69G5FAV" "我的图片.png"
    = "prod_1700000000000_01ARZ3NDEKTSV4RRFFQ69G5FAV.png" := by decide

example : sanitizeFileName 1700000000000 "01ARZ3NDEKTSV4RRFFQ69G5FAV" ""
    = "prod_1700000000000_01ARZ3NDEKTSV4RRFFQ69G5FAV.bin" := by decide

/-- The safe-character set `[A-Za-z0-9_.]` claimed for generated keys. -/
def isSafeKeyChar (c : Char) : Bool :=
  c.isAlpha || c.isDigit || c = '_' || c = '.'

/-! ## The error taxonomy (`MedusaError`) -/

inductive MedusaErrorType where
  | invalidData
  | notFound
  | unexpectedState
deriving Repr, DecidableEq

structure MedusaError where
  type : MedusaErrorType
  message : String
deriving Repr, DecidableEq

/-! ## Provider configuration (`S3FileProviderOptions`)

Optional string fields (`file_url`, `endpoint`, `signatureVersion`) use
`""` for "not configured": every use in the source is a JS truthiness
test, for which `undefined` and `""` behave identically.  The optional
boolean `s3ForcePathStyle` is a `Bool` with `false` for "unset": the
source only tests its truthiness.
-/

structure S3FileProviderOptions where
  file_url : String
  access_key_id : String
  secret_access_key : String
  region : String
  bucket : String
  endpoint : String
  s3ForcePathStyle : Bool
  signatureVersion : String
deriving Repr, DecidableEq

/-! ## Content normalization in `upload`

`file.content` can arrive as a `Buffer`, a string, or some other
buffer-like value.  Decoding itself (`Buffer.from(s, 'base64')`,
`Buffer.from(s, 'binary')`, `Buffer.from(x)`) is performed by Node's
`Buffer`, an external library; the embedding keeps the decode that was
chosen as a tagged value, since the provider's own logic is exactly the
choice of decode.
-/

inductive UploadContent where
  | buffer (bytes : List Nat)
  | str (s : String)
  | arrayLike (bytes : List Nat)
deriving Repr, DecidableEq

inductive NormalizedContent where
  | raw (bytes : List Nat)
  | decodedBase64 (s : String)
  | decodedBinary (s : String)
  | fromBufferLike (bytes : List Nat)
deriving Repr, DecidableEq

/-- A character of the base64 alphabet class `[A-Za-z0-9+/]`. -/
def isBase64Char (c : Char) : Bool :=
  c.isAlpha || c.isDigit || c = '+' || c = '/'

/-- The test `file.content.match(/^[A-Za-z0-9+\x2f]+=*$/) !== null`: the string
is one or more alphabet characters followed by zero or more `=`. -/
def matchesBase64Pattern (s : String) : Bool :=
  let run := s.data.takeWhile isBase64Char
  decide (0 < run.length) && (s.data.drop run.length).all (fun c => c == '=')

example : matchesBase64Pattern "QQ==" = true := by decide
example : matchesBase64Pattern "hello world" = false := by decide
example : matchesBase64Pattern "" = false := by decide
example : matchesBase64Pattern "AB=C" = false := by decide

def normalizeContent : UploadContent → NormalizedContent
  | .buffer bytes => .raw bytes
  | .str s => if matchesBase64Pattern s then .decodedBase64 s else .decodedBinary s
  | .arrayLike bytes => .fromBufferLike bytes

/-- Modelled from the spec: "valid base64 text" — RFC 4648 base64 without
line breaks: one or more alphabet characters, at most two `=` of trailing
padding, total length a multiple of four. -/
def isValidBase64Text (s : String) : Bool :=
  let run := s.data.takeWhile isBase64Char
  let pad := s.data.drop run.length
  decide (0 < run.length) && pad.all (fun c => c == '=') &&
    decide (pad.length ≤ 2) && decide (s.data.length % 4 = 0)

/-! ## `encodeURIComponent` (used for the original-filename metadata) -/

def isUriUnescaped (c : Char) : Bool :=
  c.isAlpha || c.isDigit || c = '-' || c = '_' || c = '.' || c = '!' ||
  c = '~' || c = '*' || c = Char.ofNat 39 || c = '(' || c = ')'

def utf8Bytes (c : Char) : List Nat :=
  let n := c.toNat
  if n < 0x80 then [n]
  else if n < 0x800 then [0xC0 ||| (n >>> 6), 0x80 ||| (n &&& 0x3F)]
  else if n < 0x10000 then
    [0xE0 ||| (n >>> 12), 0x80 ||| ((n >>> 6) &&& 0x3F), 0x80 ||| (n &&& 0x3F)]
  else
    [0xF0 ||| (n >>> 18), 0x80 ||| ((n >>> 12) &&& 0x3F), 0x80 ||| ((n >>> 6) &&& 0x3F),
      0x80 ||| (n &&& 0x3F)]

def hexDigitChar (n : Nat) : Char :=
  if n < 10 then Char.ofNat (48 + n) else Char.ofNat (65 + n - 10)

def percentEncodeByte (b : Nat) : String :=
  "%" ++ String.mk [hexDigitChar (b / 16), hexDigitChar (b % 16)]

def encodeURIComponent (s : String) : String :=
  String.join (s.data.map fun c =>
    if isUriUnescaped c then String.mk [c]
    else String.join ((utf8Bytes c).map percentEncodeByte))

example : encodeURIComponent "a b.png" = "a%20b.png" := by decide

/-! ## URL derivation in `upload`

The inline URL-construction block of `upload`, factored as a function of
the configuration and the file key.  `.replace(/\x2f$/, '')` removes one
trailing slash; `.replace('http://', '')` after a successful
`startsWith('http://')` removes the 7-character prefix (JS `replace` with
a string pattern replaces the first occurrence, which is at index 0 here).
-/

def stripTrailingSlash (s : String) : String :=
  if s.data.getLast? = some '/' then String.mk s.data.dropLast else s

def jsStartsWith (s pre : String) : Bool :=
  pre.data.isPrefixOf s.data

def jsDropChars (s : String) (n : Nat) : String :=
  String.mk (s.data.drop n)

def constructFileUrl (cfg : S3FileProviderOptions) (fileKey : String) : String :=
  if cfg.file_url ≠ "" then
    let baseUrl := stripTrailingSlash cfg.file_url
    baseUrl ++ "/" ++ fileKey
  else if cfg.endpoint ≠ "" then
    let ep0 := stripTrailingSlash cfg.endpoint
    let pe : String × String :=
      if jsStartsWith ep0 "http://" then ("http://", jsDropChars ep0 7)
      else if jsStartsWith ep0 "https://" then ("https://", jsDropChars ep0 8)
      else ("https://", ep0)
    if cfg.s3ForcePathStyle then
      pe.1 ++ pe.2 ++ "/" ++ cfg.bucket ++ "/" ++ fileKey
    else
      pe.1 ++ cfg.bucket ++ "." ++ pe.2 ++ "/" ++ fileKey
  else
    "https://" ++ cfg.bucket ++ ".s3." ++ cfg.region ++ ".amazonaws.com/" ++ fileKey

/-- Modelled from the spec's wording of the URL-derivation precedence
(claim C5), to be compared with `constructFileUrl`: (a) configured public
base URL with a trailing slash normalized away, plus `/` and the key;
else (b) custom endpoint with the protocol extracted from the endpoint
string (secure transport when unspecified), path-style
`protocol://endpoint/bucket/key` or virtual-hosted
`protocol://bucket.endpoint/key`; else (c) the regional pattern. -/
def specProtocolOf (endpoint : String) : String :=
  if jsStartsWith endpoint "http://" then "http://" else "https://"

def specHostOf (endpoint : String) : String :=
  if jsStartsWith endpoint "http://" then jsDropChars endpoint 7
  else if jsStartsWith endpoint "https://" then jsDropChars endpoint 8
  else endpoint

def urlPerSpec (cfg : S3FileProviderOptions) (key : String) : String :=
  if cfg.file_url ≠ "" then
    stripTrailingSlash cfg.file_url ++ "/" ++ key
  else if cfg.endpoint ≠ "" then
    let ep := stripTrailingSlash cfg.endpoint
    if cfg.s3ForcePathStyle then
      specProtocolOf ep ++ specHostOf ep ++ "/" ++ cfg.bucket ++ "/" ++ key
    else
      specProtocolOf ep ++ cfg.bucket ++ "." ++ specHostOf ep ++ "/" ++ key
  else
    "https://" ++ cfg.bucket ++ ".s3." ++ cfg.region ++ ".amazonaws.com/" ++ key

/-! ## `upload`

The store (`this.client.send(putCommand)`) is passed as a function from
the PUT parameters to an outcome; the first component of the result is
the list of PUT requests actually issued (empty when validation fails, so
"no store request is issued" is observable).  The `file` argument is
`Option` (absent ⇒ `none`); an absent/empty `filename` is `""`.  Success
info-logs are not tracked.
-/

structure ProviderUploadFileDTO where
  filename : String
  mimeType : String
  content : UploadContent
deriving Repr, DecidableEq

structure PutObjectParams where
  Bucket : String
  Key : String
  Body : NormalizedContent
  ContentType : String
  MetadataOriginalFilename : String
  ACL : Option String
deriving Repr, DecidableEq

inductive StoreOutcome where
  | ok
  | failure (msg : String)
deriving Repr, DecidableEq

structure UploadResult where
  url : String
  key : String
deriving Repr, DecidableEq

/-- The `putCommandParams` record built by `upload` for a validated file:
sanitized key, normalized body, content type, percent-encoded original
filename as metadata, and the ACL only when not in path-style mode. -/
def uploadPutParams (cfg : S3FileProviderOptions) (now : Nat) (uid : String)
    (f : ProviderUploadFileDTO) : PutObjectParams :=
  { Bucket := cfg.bucket
    Key := sanitizeFileName now uid f.filename
    Body := normalizeContent f.content
    ContentType := f.mimeType
    MetadataOriginalFilename := encodeURIComponent f.filename
    ACL := if !cfg.s3ForcePathStyle then some "public-read" else none }

def upload (cfg : S3FileProviderOptions) (now : Nat) (uid : String)
    (file : Option ProviderUploadFileDTO) (store : PutObjectParams → StoreOutcome) :
    List PutObjectParams × Except MedusaError UploadResult :=
  match file with
  | none => ([], .error ⟨.invalidData, "No file provided"⟩)
  | some f =>
    if f.filename = "" then
      ([], .error ⟨.invalidData, "No filename provided"⟩)
    else
      let fileKey := sanitizeFileName now uid f.filename
      let putCommandParams := uploadPutParams cfg now uid f
      match store putCommandParams with
      | .failure msg =>
        ([putCommandParams], .error ⟨.unexpectedState, "Failed to upload file: " ++ msg⟩)
      | .ok =>
        ([putCommandParams], .ok { url := constructFileUrl cfg fileKey, key := fileKey })

/-! ## `delete`

`fileData` is a single item or an array; each item may be null/undefined
(`none`) or carry a `fileKey` (empty string for an absent/empty key).
The result records, in order: the DELETE requests issued to the store,
the warning log lines, and the overall outcome.  A store-side failure for
a key only appends a warning; it does not change control flow.
-/

structure ProviderDeleteFileDTO where
  fileKey : String
deriving Repr, DecidableEq

structure DeleteObjectParams where
  Bucket : String
  Key : String
deriving Repr, DecidableEq

inductive DeleteInput where
  | single (f : Option ProviderDeleteFileDTO)
  | many (fs : List (Option ProviderDeleteFileDTO))
deriving Repr, DecidableEq

def DeleteInput.toList : DeleteInput → List (Option ProviderDeleteFileDTO)
  | .single f => [f]
  | .many fs => fs

def deleteLoop (bucket : String) (store : String → StoreOutcome) :
    List (Option ProviderDeleteFileDTO) →
    List DeleteObjectParams × List String × Except MedusaError Unit
  | [] => ([], [], .ok ())
  | f :: rest =>
    match f with
    | none => ([], [], .error ⟨.invalidData, "No file key provided"⟩)
    | some d =>
      if d.fileKey = "" then
        ([], [], .error ⟨.invalidData, "No file key provided"⟩)
      else
        let warn : List String :=
          match store d.fileKey with
          | .ok => []
          | .failure msg => ["Failed to delete file " ++ d.fileKey ++ ": " ++ msg]
        let tl := deleteLoop bucket store rest
        (⟨bucket, d.fileKey⟩ :: tl.1, warn ++ tl.2.1, tl.2.2)

def delete (bucket : String) (store : String → StoreOutcome) (fileData : DeleteInput) :
    List DeleteObjectParams × List String × Except MedusaError Unit :=
  deleteLoop bucket store fileData.toList

/-! ## `getAsBuffer`

The GET outcome models `client.send(getCommand)`: rejection with a
message, or a response whose `Body` is absent, a stream that yields
chunks, or a stream that emits an error.  Everything thrown inside the
`try` block — including the `MedusaError` with type NOT_FOUND the code
constructs for an absent body — is caught by the single `catch`, which
re-throws `UNEXPECTED_STATE` with the original error's `.message`.
-/

structure ProviderGetFileDTO where
  fileKey : String
deriving Repr, DecidableEq

inductive BodyStream where
  | chunks (cs : List (List Nat))
  | failing (msg : String)
deriving Repr, DecidableEq

inductive GetObjectOutcome where
  | success (body : Option BodyStream)
  | failure (msg : String)
deriving Repr, DecidableEq

inductive Thrown where
  | medusa (e : MedusaError)
  | jsError (msg : String)
deriving Repr, DecidableEq

def Thrown.message : Thrown → String
  | .medusa e => e.message
  | .jsError m => m

def getAsBufferTry (fileKey : String) (store : GetObjectOutcome) : Except Thrown (List Nat) :=
  match store with
  | .failure msg => .error (.jsError msg)
  | .success none => .error (.medusa ⟨.notFound, "File " ++ fileKey ++ " not found or empty"⟩)
  | .success (some (.chunks cs)) => .ok cs.flatten
  | .success (some (.failing msg)) => .error (.jsError msg)

def getAsBuffer (fileData : Option ProviderGetFileDTO) (store : GetObjectOutcome) :
    Except MedusaError (List Nat) :=
  match fileData with
  | none => .error ⟨.invalidData, "No file key provided"⟩
  | some fd =>
    if fd.fileKey = "" then .error ⟨.invalidData, "No file key provided"⟩
    else
      match getAsBufferTry fd.fileKey store with
      | .ok b => .ok b
      | .error e => .error ⟨.unexpectedState, "Failed to get buffer: " ++ e.message⟩

/-! ## `getPresignedUploadUrl`

`getSignedUrl` belongs to the external SDK; the signed URL is modelled
symbolically as the command it signs together with its `expiresIn`
(seconds).  A rejection of `getSignedUrl` is the `signOutcome` failure
case, wrapped by the `catch`.
-/

structure ProviderGetPresignedUploadUrlDTO where
  filename : String
deriving Repr, DecidableEq

structure PresignPutCommand where
  Bucket : String
  Key : String
deriving Repr, DecidableEq

structure SignedUrl where
  command : PresignPutCommand
  expiresIn : Nat
deriving Repr, DecidableEq

structure PresignResult where
  url : SignedUrl
  key : String
deriving Repr, DecidableEq

def getPresignedUploadUrl (cfg : S3FileProviderOptions) (now : Nat) (uid : String)
    (signOutcome : StoreOutcome) (fileData : Option ProviderGetPresignedUploadUrlDTO) :
    Except MedusaError PresignResult :=
  match fileData with
  | none => .error ⟨.invalidData, "No filename provided"⟩
  | some fd =>
    if fd.filename = "" then .error ⟨.invalidData, "No filename provided"⟩
    else
      let fileKey := sanitizeFileName now uid fd.filename
      match signOutcome with
      | .failure msg =>
        .error ⟨.unexpectedState, "Failed to generate presigned upload URL: " ++ msg⟩
      | .ok =>
        .ok { url := { command := { Bucket := cfg.bucket, Key := fileKey }, expiresIn := 15 * 60 }
              key := fileKey }

/-- A sample configuration used to instantiate universally quantified
theorems at concrete inputs. -/
def sampleOptions : S3FileProviderOptions :=
  { file_url := ""
    access_key_id := "AK"
    secret_access_key := "SK"
    region := "us-east-1"
    bucket := "media"
    endpoint := ""
    s3ForcePathStyle := false
    signatureVersion := "" }

/-! ## Helper lemmas -/

theorem digitChar_isDigit (m : Nat) (h : m < 10) : (Nat.digitChar m).isDigit = true := by
  interval_cases m <;> decide

theorem toDigitsCore_digits (fuel : Nat) :
    ∀ (n : Nat) (acc : List Char), (∀ c ∈ acc, c.isDigit = true) →
    ∀ c ∈ Nat.toDigitsCore 10 fuel n acc, c.isDigit = true := by
  induction fuel with
  | zero =>
    intro n acc hacc c hc
    simpa [Nat.toDigitsCore] using hacc c hc
  | succ fuel ih =>
    intro n acc hacc c hc
    have hd : (Nat.digitChar (n % 10)).isDigit = true :=
      digitChar_isDigit _ (Nat.mod_lt _ (by decide))
    have hcons : ∀ x ∈ Nat.digitChar (n % 10) :: acc, x.isDigit = true := by
      intro x hx
      rcases List.mem_cons.mp hx with h | h
      · rw [h]; exact hd
      · exact hacc x h
    simp only [Nat.toDigitsCore] at hc
    split at hc
    · exact hcons c hc
    · exact ih (n / 10) _ hcons c hc

/-- Every character of the decimal rendering `Nat.repr n` (the embedding
of the template interpolation of `timestamp`) is an ASCII digit. -/
theorem repr_data_digits (n : Nat) : ∀ c ∈ (Nat.repr n).data, c.isDigit = true := by
  intro c hc
  exact toDigitsCore_digits (n + 1) n [] (by intro x hx; cases hx) c hc

/-- The key of a non-null delete item (`""` for the null item). -/
def deleteKeyOf : Option ProviderDeleteFileDTO → String
  | none => ""
  | some d => d.fileKey

/-- `file?.fileKey` is truthy: the item is present and its key non-empty. -/
def isValidDeleteItem : Option ProviderDeleteFileDTO → Bool
  | none => false
  | some d => decide (d.fileKey ≠ "")

theorem deleteLoop_all_valid (bucket : String) (store : String → StoreOutcome) :
    ∀ fs : List (Option ProviderDeleteFileDTO), (∀ f ∈ fs, isValidDeleteItem f = true) →
    (deleteLoop bucket store fs).1 = fs.map (fun f => ⟨bucket, deleteKeyOf f⟩) ∧
    (deleteLoop bucket store fs).2.2 = .ok () := by
  intro fs
  induction fs with
  | nil => intro _; exact ⟨rfl, rfl⟩
  | cons f rest ih =>
    intro h
    have hf := h f (List.mem_cons_self f rest)
    have hrest := ih fun x hx => h x (List.mem_cons_of_mem f hx)
    cases f with
    | none => simp [isValidDeleteItem] at hf
    | some d =>
      have hk : ¬ d.fileKey = "" := by simpa [isValidDeleteItem] using hf
      refine ⟨?_, ?_⟩ <;> simp [deleteLoop, hk, deleteKeyOf, hrest.1, hrest.2]

theorem deleteLoop_stops_at_first_invalid (bucket : String) (store : String → StoreOutcome) :
    ∀ (pre : List (Option ProviderDeleteFileDTO)) (bad : Option ProviderDeleteFileDTO)
      (rest : List (Option ProviderDeleteFileDTO)),
    (∀ f ∈ pre, isValidDeleteItem f = true) → isValidDeleteItem bad = false →
    (deleteLoop bucket store (pre ++ bad :: rest)).1
      = pre.map (fun f => ⟨bucket, deleteKeyOf f⟩) ∧
    (deleteLoop bucket store (pre ++ bad :: rest)).2.2
      = .error ⟨.invalidData, "No file key provided"⟩ := by
  intro pre
  induction pre with
  | nil =>
    intro bad rest _ hbad
    cases bad with
    | none => exact ⟨rfl, rfl⟩
    | some d =>
      have hk : d.fileKey = "" := by simpa [isValidDeleteItem] using hbad
      refine ⟨?_, ?_⟩ <;> simp [deleteLoop, hk]
  | cons f pre ih =>
    intro bad rest h hbad
    have hf := h f (List.mem_cons_self f pre)
    have hrest := ih bad rest (fun x hx => h x (List.mem_cons_of_mem f hx)) hbad
    cases f with
    | none => simp [isValidDeleteItem] at hf
    | some d =>
      have hk : ¬ d.fileKey = "" := by simpa [isValidDeleteItem] using hf
      refine ⟨?_, ?_⟩ <;> simp [deleteLoop, hk, deleteKeyOf, hrest.1, hrest.2]

theorem getAsBuffer_never_notFound :
    ∀ (fd : Option ProviderGetFileDTO) (store : GetObjectOutcome) (e : MedusaError),
    getAsBuffer fd store = .error e → e.type ≠ MedusaErrorType.notFound := by
  intro fd store e h
  cases fd with
  | none =>
    simp only [getAsBuffer, Except.error.injEq] at h
    subst h; decide
  | some fd =>
    simp only [getAsBuffer] at h
    split at h
    · simp only [Except.error.injEq] at h
      subst h; decide
    · cases store with
      | failure msg =>
        simp only [getAsBufferTry, Thrown.message, Except.error.injEq] at h
        subst h; simp
      | success body =>
        cases body with
        | none =>
          simp only [getAsBufferTry, Thrown.message, Except.error.injEq] at h
          subst h; simp
        | some bs =>
          cases bs with
          | chunks cs => exact Except.noConfusion h
          | failing msg =>
            simp only [getAsBufferTry, Thrown.message, Except.error.injEq] at h
            subst h; simp

/-- The claimed key pattern `prod_<13digits>_<26charToken><ext>`. -/
def keyMatchesPattern (ext k : String) : Prop :=
  ∃ ds us : String, k = "prod_" ++ ds ++ "_" ++ us ++ ext ∧
    ds.length = 13 ∧ (∀ c ∈ ds.data, c.isDigit = true) ∧ us.length = 26

/-- Modelled from the claim's wording for C4: the substring of the input
from its last dot onward, or `""` when the input has no dot. -/
def substrFromLastDot (s : String) : String :=
  if s.data.contains '.' then
    String.mk ('.' :: (s.data.reverse.takeWhile (fun c => c != '.')).reverse)
  else ""

example : substrFromLastDot "a.b@c" = ".b@c" := by decide
example : substrFromLastDot "abc" = "" := by decide

/-! ## Claims -/

/-- C1: the claim that every key returned by `sanitizeFileName` contains
only characters in `[A-Za-z0-9_.]` is false on the code: `path.extname`'s
result is concatenated into the key verbatim, so an input whose extension
carries a special character (here `a.b@c`, extension `.b@c`) produces a
key containing `@`.  The function's own doc comment promises removal of
all special symbols, so the code contradicts its own documentation. -/
theorem c1_extension_chars_leak_into_key :
    sanitizeFileName 1700000000000 "01ARZ3NDEKTSV4RRFFQ69G5FAV" "a.b@c"
      = "prod_1700000000000_01ARZ3NDEKTSV4RRFFQ69G5FAV.b@c" ∧
    (sanitizeFileName 1700000000000 "01ARZ3NDEKTSV4RRFFQ69G5FAV" "a.b@c").data.all
        isSafeKeyChar = false ∧
    (sanitizeFileName 1700000000000 "01ARZ3NDEKTSV4RRFFQ69G5FAV" "图.片").data.all
        isSafeKeyChar = false := by
  refine ⟨by decide, by decide, by decide⟩

/-- C2: the claim that `getAsBuffer` fails with NotFound when the store
reports an empty/absent body is false on the code: the NOT_FOUND
`MedusaError` is thrown inside the `try` block and the catch-all rewraps
every thrown error as UNEXPECTED_STATE, so no call of `getAsBuffer` ever
fails with NotFound.  The InvalidInput-on-missing-key and
UnexpectedState-on-other-errors parts of the claim do hold. -/
theorem c2_empty_body_wrapped_as_unexpectedState :
    getAsBuffer (some ⟨"k"⟩) (.success none)
      = .error ⟨.unexpectedState, "Failed to get buffer: File k not found or empty"⟩ ∧
    getAsBuffer none (.success none) = .error ⟨.invalidData, "No file key provided"⟩ ∧
    getAsBuffer (some ⟨""⟩) (.success none)
      = .error ⟨.invalidData, "No file key provided"⟩ ∧
    getAsBuffer (some ⟨"k"⟩) (.failure "connection reset")
      = .error ⟨.unexpectedState, "Failed to get buffer: connection reset"⟩ ∧
    (∀ (fd : Option ProviderGetFileDTO) (store : GetObjectOutcome) (e : MedusaError),
      getAsBuffer fd store = .error e → e.type ≠ MedusaErrorType.notFound) :=
  ⟨rfl, rfl, rfl, rfl, getAsBuffer_never_notFound⟩

theorem c2_witness :
    getAsBuffer (some ⟨"k"⟩) (.success none)
      = .error ⟨.unexpectedState, "Failed to get buffer: File k not found or empty"⟩ ∧
    (⟨.unexpectedState, "Failed to get buffer: File k not found or empty"⟩ : MedusaError).type
      ≠ MedusaErrorType.notFound :=
  ⟨c2_empty_body_wrapped_as_unexpectedState.1,
    c2_empty_body_wrapped_as_unexpectedState.2.2.2.2 (some ⟨"k"⟩) (.success none) _ rfl⟩

/-- C3 counterexample: with the collection `[{fileKey: "a"}, {}]` the
delete request for `"a"` is issued to the store before the call fails
with InvalidInput on the second item, refuting "fails with InvalidInput
before any delete request is issued" for collections. -/
theorem c3_counterexample_delete_after_valid_item :
    (delete "media" (fun _ => .ok) (.many [some ⟨"a"⟩, none])).1 = [⟨"media", "a"⟩] ∧
    (delete "media" (fun _ => .ok) (.many [some ⟨"a"⟩, none])).2.2
      = .error ⟨.invalidData, "No file key provided"⟩ :=
  ⟨by decide, rfl⟩

/-- C3 amended: validation is interleaved with the per-item loop — the
call fails with InvalidInput at the first item whose key is missing or
empty, after delete requests have been issued for every preceding item
(so a single invalid item fails before any request); when all items carry
non-empty keys, every key's delete request is issued regardless of
store-side failures (which are only logged) and the call resolves. -/
theorem c3_amended_delete_behaviour :
    ∀ (bucket : String) (store : String → StoreOutcome),
    (∀ fs, (∀ f ∈ fs, isValidDeleteItem f = true) →
        (delete bucket store (.many fs)).1 = fs.map (fun f => ⟨bucket, deleteKeyOf f⟩) ∧
        (delete bucket store (.many fs)).2.2 = .ok ()) ∧
    (∀ pre bad rest, (∀ f ∈ pre, isValidDeleteItem f = true) → isValidDeleteItem bad = false →
        (delete bucket store (.many (pre ++ bad :: rest))).1
          = pre.map (fun f => ⟨bucket, deleteKeyOf f⟩) ∧
        (delete bucket store (.many (pre ++ bad :: rest))).2.2
          = .error ⟨.invalidData, "No file key provided"⟩) ∧
    (∀ f, isValidDeleteItem f = false →
        (delete bucket store (.single f)).1 = [] ∧
        (delete bucket store (.single f)).2.2
          = .error ⟨.invalidData, "No file key provided"⟩) := by
  intro bucket store
  refine ⟨fun fs h => deleteLoop_all_valid bucket store fs h,
    fun pre bad rest h hb => deleteLoop_stops_at_first_invalid bucket store pre bad rest h hb,
    ?_⟩
  intro f hf
  exact deleteLoop_stops_at_first_invalid bucket store [] f [] (by intro x hx; cases hx) hf

theorem c3_amended_witness :
    (delete "media" (fun k => if k == "a" then .failure "denied" else .ok)
      (.many [some ⟨"a"⟩, some ⟨"b"⟩])).1 = [⟨"media", "a"⟩, ⟨"media", "b"⟩] ∧
    (delete "media" (fun k => if k == "a" then .failure "denied" else .ok)
      (.many [some ⟨"a"⟩, some ⟨"b"⟩])).2.2 = .ok () :=
  (c3_amended_delete_behaviour "media"
      (fun k => if k == "a" then .failure "denied" else .ok)).1
    [some ⟨"a"⟩, some ⟨"b"⟩] (by decide)

/-- C4 counterexample: the claim says the key's extension equals the
substring of the input from its last dot onward; for the input
`.bashrc` that substring is `.bashrc`, but `path.extname` gives `""`
(a dotfile has no extension), so the generated key does not end with
`.bashrc`. -/
theorem c4_counterexample_dotfile :
    substrFromLastDot ".bashrc" = ".bashrc" ∧
    sanitizeFileName 1700000000000 "01ARZ3NDEKTSV4RRFFQ69G5FAV" ".bashrc"
      = "prod_1700000000000_01ARZ3NDEKTSV4RRFFQ69G5FAV" ∧
    List.isSuffixOf (substrFromLastDot ".bashrc").data
      (sanitizeFileName 1700000000000 "01ARZ3NDEKTSV4RRFFQ69G5FAV" ".bashrc").data = false := by
  refine ⟨by decide, by decide, by decide⟩

/-- C4 amended: for every non-empty input the key matches
`prod_<13digits>_<26charToken><ext>` where `<ext>` is Node's
`path.extname` of the input (the substring from the last dot of the
final path segment onward, empty when that dot is the segment's first
character or the segment is `..`); for an empty input the key matches
the same pattern with extension `.bin`.  The 13-digit and 26-character
shapes hold whenever the timestamp renders as 13 decimal digits (true
for all millisecond timestamps between 2001 and 2286) and the token has
the 26-character ULID length. -/
theorem c4_amended_key_pattern :
    ∀ (now : Nat) (uid name : String),
    (Nat.repr now).length = 13 → uid.length = 26 →
    (name ≠ "" → keyMatchesPattern (extname name) (sanitizeFileName now uid name)) ∧
    keyMatchesPattern ".bin" (sanitizeFileName now uid "") := by
  intro now uid name h13 h26
  constructor
  · intro hn
    refine ⟨Nat.repr now, uid, ?_, h13, repr_data_digits now, h26⟩
    simp [sanitizeFileName, hn]
  · exact ⟨Nat.repr now, uid, by simp [sanitizeFileName], h13, repr_data_digits now, h26⟩

theorem c4_amended_witness :
    keyMatchesPattern (extname "我的图片.png")
      (sanitizeFileName 1700000000000 "01ARZ3NDEKTSV4RRFFQ69G5FAV" "我的图片.png") ∧
    keyMatchesPattern ".bin"
      (sanitizeFileName 1700000000000 "01ARZ3NDEKTSV4RRFFQ69G5FAV" "") :=
  ⟨(c4_amended_key_pattern 1700000000000 "01ARZ3NDEKTSV4RRFFQ69G5FAV" "我的图片.png"
      (by decide) (by decide)).1 (by decide),
    (c4_amended_key_pattern 1700000000000 "01ARZ3NDEKTSV4RRFFQ69G5FAV" "x"
      (by decide) (by decide)).2⟩

/-- C5: the URL returned by upload follows the claimed precedence —
public base URL (trailing slash removed) over custom endpoint (protocol
extracted, defaulting to https; path-style `protocol://endpoint/bucket/key`
versus virtual-hosted `protocol://bucket.endpoint/key`) over the regional
`https://bucket.s3.region.amazonaws.com/key` pattern — including the two
concrete examples of the claim. -/
theorem c5_url_derivation :
    (∀ (cfg : S3FileProviderOptions) (key : String),
      constructFileUrl cfg key = urlPerSpec cfg key) ∧
    constructFileUrl { sampleOptions with file_url := "https://cdn.example.com/" }
      "prod_1_abc.png" = "https://cdn.example.com/prod_1_abc.png" ∧
    constructFileUrl
      { sampleOptions with endpoint := "http://minio.local:9000", s3ForcePathStyle := true }
      "k.png" = "http://minio.local:9000/media/k.png" := by
  refine ⟨?_, by decide, by decide⟩
  intro cfg key
  simp only [constructFileUrl, urlPerSpec, specProtocolOf, specHostOf]
  split_ifs <;> rfl

/-- C6: `upload` fails with InvalidInput when the file argument is absent
or its filename is absent/empty, and the list of PUT requests issued to
the store is empty in both cases. -/
theorem c6_upload_validation_issues_no_put :
    ∀ (cfg : S3FileProviderOptions) (now : Nat) (uid : String)
      (store : PutObjectParams → StoreOutcome),
    upload cfg now uid none store = ([], .error ⟨.invalidData, "No file provided"⟩) ∧
    (∀ f : ProviderUploadFileDTO, f.filename = "" →
      upload cfg now uid (some f) store
        = ([], .error ⟨.invalidData, "No filename provided"⟩)) := by
  intro cfg now uid store
  refine ⟨rfl, ?_⟩
  intro f hf
  simp [upload, hf]

theorem c6_witness :
    upload sampleOptions 1700000000000 "01ARZ3NDEKTSV4RRFFQ69G5FAV"
        (some { filename := "", mimeType := "image/png", content := .str "QQ==" })
        (fun _ => .ok)
      = ([], .error ⟨.invalidData, "No filename provided"⟩) :=
  (c6_upload_validation_issues_no_put sampleOptions 1700000000000
      "01ARZ3NDEKTSV4RRFFQ69G5FAV" (fun _ => .ok)).2
    { filename := "", mimeType := "image/png", content := .str "QQ==" } rfl

/-- C7: string content is base64-decoded exactly when it matches the
pattern `[A-Za-z0-9+/]+=*` and treated as a binary-encoded string
otherwise; a Buffer is used as-is; other buffer-like values are converted
to bytes; and every string that is valid base64 text matches the pattern,
hence is always treated as base64. -/
theorem c7_content_normalization :
    (∀ bytes, normalizeContent (.buffer bytes) = .raw bytes) ∧
    (∀ s, matchesBase64Pattern s = true → normalizeContent (.str s) = .decodedBase64 s) ∧
    (∀ s, matchesBase64Pattern s = false → normalizeContent (.str s) = .decodedBinary s) ∧
    (∀ bytes, normalizeContent (.arrayLike bytes) = .fromBufferLike bytes) ∧
    (∀ s, isValidBase64Text s = true → matchesBase64Pattern s = true) := by
  refine ⟨fun _ => rfl, ?_, ?_, fun _ => rfl, ?_⟩
  · intro s h; simp [normalizeContent, h]
  · intro s h; simp [normalizeContent, h]
  · intro s h
    simp only [isValidBase64Text, Bool.and_eq_true, decide_eq_true_eq] at h
    simp only [matchesBase64Pattern, Bool.and_eq_true, decide_eq_true_eq]
    exact ⟨h.1.1.1, h.1.1.2⟩

theorem c7_witness :
    isValidBase64Text "QQ==" = true ∧
    normalizeContent (.str "QQ==") = .decodedBase64 "QQ==" :=
  ⟨by decide, c7_content_normalization.2.1 "QQ=="
    (c7_content_normalization.2.2.2.2 "QQ==" (by decide))⟩

/-- C8: every PUT request issued by `upload` carries
`ACL = "public-read"` exactly when `s3ForcePathStyle` is unset/false, and
omits the ACL field when the flag is true. -/
theorem c8_acl_iff_not_path_style :
    ∀ (cfg : S3FileProviderOptions) (now : Nat) (uid : String)
      (f : ProviderUploadFileDTO) (store : PutObjectParams → StoreOutcome),
    f.filename ≠ "" →
    ∀ p ∈ (upload cfg now uid (some f) store).1,
      (p.ACL = some "public-read" ↔ cfg.s3ForcePathStyle = false) := by
  intro cfg now uid f store hf p hp
  simp only [upload] at hp
  rw [if_neg hf] at hp
  split at hp <;>
  · simp only [List.mem_singleton] at hp
    subst hp
    cases hflag : cfg.s3ForcePathStyle <;> simp [uploadPutParams, hflag]

theorem c8_witness :
    (uploadPutParams sampleOptions 1700000000000 "01ARZ3NDEKTSV4RRFFQ69G5FAV"
        { filename := "a.png", mimeType := "image/png", content := .str "QQ==" }).ACL
      = some "public-read" ↔ sampleOptions.s3ForcePathStyle = false :=
  c8_acl_iff_not_path_style sampleOptions 1700000000000 "01ARZ3NDEKTSV4RRFFQ69G5FAV"
    { filename := "a.png", mimeType := "image/png", content := .str "QQ==" }
    (fun _ => .ok) (by decide) _ (by decide)

/-- C9: `getPresignedUploadUrl` fails with InvalidInput when the filename
is missing/empty; otherwise it returns the key produced by the same
`sanitizeFileName` step that `upload` uses (the caller's filename is
never the key) together with a signed PUT command for that key that
expires in 15 minutes (900 seconds). -/
theorem c9_presigned_upload_url :
    ∀ (cfg : S3FileProviderOptions) (now : Nat) (uid : String)
      (signOutcome : StoreOutcome) (fn : String),
    getPresignedUploadUrl cfg now uid signOutcome none
      = .error ⟨.invalidData, "No filename provided"⟩ ∧
    getPresignedUploadUrl cfg now uid signOutcome (some ⟨""⟩)
      = .error ⟨.invalidData, "No filename provided"⟩ ∧
    (fn ≠ "" →
      getPresignedUploadUrl cfg now uid .ok (some ⟨fn⟩)
        = .ok { url := { command := { Bucket := cfg.bucket
                                      Key := sanitizeFileName now uid fn }
                         expiresIn := 15 * 60 }
                key := sanitizeFileName now uid fn } ∧
      (∀ (mime : String) (content : UploadContent)
          (store : PutObjectParams → StoreOutcome) (r : UploadResult),
        (upload cfg now uid (some ⟨fn, mime, content⟩) store).2 = .ok r →
        r.key = sanitizeFileName now uid fn)) := by
  intro cfg now uid so fn
  refine ⟨rfl, rfl, fun hfn => ⟨?_, ?_⟩⟩
  · simp [getPresignedUploadUrl, hfn]
  · intro mime content store r hr
    simp only [upload] at hr
    rw [if_neg hfn] at hr
    split at hr
    · exact Except.noConfusion hr
    · simp only [Except.ok.injEq] at hr
      subst hr
      rfl

theorem c9_witness :
    getPresignedUploadUrl sampleOptions 1700000000000 "01ARZ3NDEKTSV4RRFFQ69G5FAV" .ok
        (some ⟨"a.png"⟩)
      = .ok { url := { command := { Bucket := "media"
                                    Key := sanitizeFileName 1700000000000
                                      "01ARZ3NDEKTSV4RRFFQ69G5FAV" "a.png" }
                       expiresIn := 15 * 60 }
              key := sanitizeFileName 1700000000000
                "01ARZ3NDEKTSV4RRFFQ69G5FAV" "a.png" } :=
  ((c9_presigned_upload_url sampleOptions 1700000000000 "01ARZ3NDEKTSV4RRFFQ69G5FAV"
      .ok "a.png").2.2 (by decide)).1

/-- C10: the generated key depends on the untrusted filename only through
its `path.extname` extension — two non-empty filenames with the same
extension yield identical keys at the same timestamp and token. -/
theorem c10_key_depends_only_on_extname :
    ∀ (now : Nat) (uid n1 n2 : String),
    n1 ≠ "" → n2 ≠ "" → extname n1 = extname n2 →
    sanitizeFileName now uid n1 = sanitizeFileName now uid n2 := by
  intro now uid n1 n2 h1 h2 hext
  simp [sanitizeFileName, h1, h2, hext]

theorem c10_witness :
    sanitizeFileName 1700000000000 "01ARZ3NDEKTSV4RRFFQ69G5FAV" "我的图片.png"
      = sanitizeFileName 1700000000000 "01ARZ3NDEKTSV4RRFFQ69G5FAV" "completely different.png" :=
  c10_key_depends_only_on_extname 1700000000000 "01ARZ3NDEKTSV4RRFFQ69G5FAV"
    "我的图片.png" "completely different.png" (by decide) (by decide) (by decide)
